import Mathlib

/-!
Shallow embedding of the FRA accident/incident data-pull notebook
(`notebooks/fra_data_pull.ipynb`): a paginated HTTP fetch loop, a
pandas-style row-filter pipeline (cause-code exclusion, column
projection, date parsing, 10-year recency filter) and a CSV export.

The fetch loop is modelled with explicit fuel over an abstract server
`Nat → Nat → Response α` taking the `$limit` and `$offset` query
parameters.  The pandas `DataFrame` is modelled as its column list
(the union of the fetched records' keys, in first-appearance order)
together with the list of rows; a cell whose key is absent from a row
is `NaN` (modelled by `Value.null`), and reading or selecting a column
that is absent from the whole frame raises `KeyError` (modelled by
`Except.error`).  Datetimes are instants on an integer timeline whose
unit is one day, so `timedelta(days=365*10)` is the integer `365*10`.
-/

/-- One HTTP response: the status code and the JSON array of records of
the page (`response.status_code`, `response.json()`). -/
structure Response (α : Type) where
  status : Nat
  data : List α

/-- Result of the `while True` fetch loop: the loop breaks on an empty
page with all records (`complete`), breaks on a non-200 status keeping
the records accumulated so far (`failed`), or — an artefact of the fuel
encoding only — runs out of fuel. -/
inductive FetchOutcome (α : Type) where
  | complete (data : List α)
  | failed (status : Nat) (data : List α)
  | outOfFuel (data : List α)
deriving DecidableEq

/-- The notebook's fetch loop.  Each iteration issues one GET at the
current `offset`; on status 200 an empty page breaks the loop, a
non-empty page is appended to `all_data` and `offset += limit`; on any
other status the loop breaks with the partial data.  The second
component counts the GET calls issued. -/
def fetchAux (server : Nat → Nat → Response α) (limit : Nat) :
    Nat → Nat → List α → FetchOutcome α × Nat
  | 0, _, acc => (FetchOutcome.outOfFuel acc, 0)
  | fuel + 1, offset, acc =>
    let resp := server limit offset
    if resp.status = 200 then
      if resp.data.isEmpty then
        (FetchOutcome.complete acc, 1)
      else
        let r := fetchAux server limit fuel (offset + limit) (acc ++ resp.data)
        (r.1, r.2 + 1)
    else
      (FetchOutcome.failed resp.status acc, 1)

/-- Run the fetch loop from `offset = 0` with `all_data = []`. -/
def fetchAll (server : Nat → Nat → Response α) (limit fuel : Nat) :
    FetchOutcome α × Nat :=
  fetchAux server limit fuel 0 []

/-- A mock source holding `dataset`, serving records in offset order:
the page at `offset` is the next `limit` records, always with
status 200. -/
def pageServer (dataset : List α) : Nat → Nat → Response α :=
  fun limit offset => ⟨200, (dataset.drop offset).take limit⟩

/-- Concatenation of the records returned by `n` consecutive calls
starting at `offset` (offset advancing by `limit` per call). -/
def pagesConcatFrom (server : Nat → Nat → Response α) (limit : Nat) :
    Nat → Nat → List α
  | _, 0 => []
  | offset, n + 1 =>
    (server limit offset).data ++ pagesConcatFrom server limit (offset + limit) n

/-- A JSON scalar cell value: a string, a number-like value (also used
for parsed datetimes on the integer day timeline), or null/NaN/NaT. -/
inductive Value where
  | str : String → Value
  | int : Int → Value
  | null : Value
deriving DecidableEq

/-- One accident/incident record: a mapping of field name to scalar,
as the JSON object of the API (first binding wins on lookup). -/
abbrev Record := List (String × Value)

/-- Dictionary lookup of a field. -/
def lookupField : Record → String → Option Value
  | [], _ => none
  | kv :: rest, k => if kv.1 = k then some kv.2 else lookupField rest k

/-- Whether the record carries the key at all (a null value still
counts as present, exactly as a dict key with value `None` does). -/
def hasField (r : Record) (k : String) : Bool :=
  (lookupField r k).isSome

/-- The pandas cell for row `r` and column `k`: the stored value, or
NaN when the row has no such key. -/
def cellValue (r : Record) (k : String) : Value :=
  (lookupField r k).getD Value.null

/-- Append a key to a column list unless already present. -/
def insertKey (acc : List String) (k : String) : List String :=
  if k ∈ acc then acc else acc ++ [k]

/-- Fold one record's keys into a column list. -/
def addRecordKeys : List String → Record → List String
  | acc, [] => acc
  | acc, kv :: rest => addRecordKeys (insertKey acc kv.1) rest

/-- Fold all records' keys into a column list. -/
def unionKeysAux : List String → List Record → List String
  | acc, [] => acc
  | acc, r :: rs => unionKeysAux (addRecordKeys acc r) rs

/-- The columns of `pd.DataFrame(all_data)`: the union of the records'
keys in order of first appearance. -/
def unionKeys (rs : List Record) : List String :=
  unionKeysAux [] rs

/-- A pandas DataFrame: its column list and its rows. -/
structure DataFrame where
  columns : List String
  rows : List Record
deriving DecidableEq

/-- `pd.DataFrame(all_data)`. -/
def toDataFrame (records : List Record) : DataFrame :=
  ⟨unionKeys records, records⟩

/-- `Series.isin(codes)` on one cell: only a string cell equal to a
member of the code list tests true; NaN (and any non-string cell)
tests false. -/
def valueMemberOf (v : Value) (codes : List String) : Bool :=
  match v with
  | Value.str s => decide (s ∈ codes)
  | _ => false

/-- `df[~df['primaryaccidentcausecode'].isin(codes_list)]`: reading the
column raises `KeyError` when it is absent from the frame; otherwise
rows whose cell is a member of the exclusion code list are dropped. -/
def exclusionStep (codes : List String) (df : DataFrame) : Except String DataFrame :=
  if "primaryaccidentcausecode" ∈ df.columns then
    Except.ok ⟨df.columns,
      df.rows.filter fun r =>
        !(valueMemberOf (cellValue r "primaryaccidentcausecode") codes)⟩
  else
    Except.error "KeyError"

/-- The notebook's `features_to_analyze` list of projected columns. -/
def features_to_analyze : List String :=
  ["reportingrailroadcode", "accidentnumber", "date", "time", "accidenttype",
   "hazmatreleasedcars", "station", "stateabbr", "temperature",
   "visibility_code", "visibility", "weathercondition", "tracktype",
   "equipmenttype", "trainspeed", "equipmentdamagecost", "trackdamagecost",
   "totaldamagecost", "primaryaccidentcausecode", "latitude", "longitude"]

/-- One projected row: the selected columns in order, a missing key
null-filled with NaN. -/
def projRow (cols : List String) (r : Record) : Record :=
  cols.map fun c => (c, cellValue r c)

/-- `df[features_to_analyze]`: raises `KeyError` when any selected
column is absent from the frame's column list; otherwise keeps every
row, restricted (and NaN-filled) to the selected columns. -/
def projectStep (cols : List String) (df : DataFrame) : Except String DataFrame :=
  if ∀ c ∈ cols, c ∈ df.columns then
    Except.ok ⟨cols, df.rows.map (projRow cols)⟩
  else
    Except.error "KeyError"

/-- `pd.to_datetime` on one cell, parameterised by the library's string
parser `parse`: NaN becomes NaT (kept as null), an already numeric
value is an instant, an unparsable string raises. -/
def parseDateCell (parse : String → Option Int) : Value → Except String Value
  | Value.null => Except.ok Value.null
  | Value.int n => Except.ok (Value.int n)
  | Value.str s =>
    match parse s with
    | some d => Except.ok (Value.int d)
    | none => Except.error "DateParseError"

/-- Overwrite the value stored at key `k` (column assignment on one
row). -/
def setField (r : Record) (k : String) (v : Value) : Record :=
  r.map fun kv => if kv.1 = k then (k, v) else kv

/-- One row of `df['date'] = pd.to_datetime(df['date'])`. -/
def rowWithParsedDate (parse : String → Option Int) (r : Record) :
    Except String Record :=
  match parseDateCell parse (cellValue r "date") with
  | Except.ok v => Except.ok (setField r "date" v)
  | Except.error e => Except.error e

/-- Elementwise fallible map: the first failing element aborts. -/
def mapExcept (f : α → Except String β) : List α → Except String (List β)
  | [] => Except.ok []
  | a :: as =>
    match f a with
    | Except.error e => Except.error e
    | Except.ok b =>
      match mapExcept f as with
      | Except.error e => Except.error e
      | Except.ok bs => Except.ok (b :: bs)

/-- `df['date'] = pd.to_datetime(df['date'])`: reading a column absent
from the frame raises `KeyError`; an unparsable date cell raises; NaN
cells become NaT without error. -/
def parseDatesStep (parse : String → Option Int) (df : DataFrame) :
    Except String DataFrame :=
  if "date" ∈ df.columns then
    match mapExcept (rowWithParsedDate parse) df.rows with
    | Except.ok rows => Except.ok ⟨df.columns, rows⟩
    | Except.error e => Except.error e
  else
    Except.error "KeyError"

/-- `ten_years_ago = datetime.today() - timedelta(days=365*10)` on the
integer day timeline. -/
def ten_years_ago (today : Int) : Int :=
  today - 365 * 10

/-- The comparison `date >= ten_years_ago` on one cell: NaT (and any
non-datetime cell) compares false. -/
def keepRecent (cutoff : Int) (v : Value) : Bool :=
  match v with
  | Value.int d => decide (cutoff ≤ d)
  | _ => false

/-- `df[df['date'] >= ten_years_ago]`. -/
def recencyStep (today : Int) (df : DataFrame) : Except String DataFrame :=
  if "date" ∈ df.columns then
    Except.ok ⟨df.columns,
      df.rows.filter fun r => keepRecent (ten_years_ago today) (cellValue r "date")⟩
  else
    Except.error "KeyError"

/-- The whole row-filter pipeline of the notebook, run on the fetched
records: build the DataFrame, exclude cause codes, project to
`features_to_analyze`, parse the date column, keep the last ten
years. -/
def runFilter (codes : List String) (parse : String → Option Int) (today : Int)
    (records : List Record) : Except String DataFrame :=
  match exclusionStep codes (toDataFrame records) with
  | Except.error e => Except.error e
  | Except.ok df1 =>
    match projectStep features_to_analyze df1 with
    | Except.error e => Except.error e
    | Except.ok df2 =>
      match parseDatesStep parse df2 with
      | Except.error e => Except.error e
      | Except.ok df3 => recencyStep today df3

/-- The per-record transformation the pipeline applies to each row it
keeps: projection to the fixed columns, then date parsing. -/
def transformRecord (parse : String → Option Int) (r : Record) :
    Except String Record :=
  rowWithParsedDate parse (projRow features_to_analyze r)

/-- `df.to_csv(path, index=False)` viewed as the table it writes: the
header row of column names followed by one cell row per record, with
no index column. -/
def to_csv (df : DataFrame) : List (List Value) :=
  (df.columns.map Value.str) :: df.rows.map fun r => df.columns.map fun c => cellValue r c

/-- A trivially total date parser, for concrete witnesses. -/
def constParse : String → Option Int :=
  fun _ => some 0

/-- A concrete record carrying every projected column. -/
def sampleRecord : Record :=
  features_to_analyze.map fun c => (c, Value.str "v")

/-- The pipeline's output on `[sampleRecord]` with no exclusions,
`constParse` and `today = 0`. -/
def sampleOut : DataFrame :=
  ⟨features_to_analyze, [setField (projRow features_to_analyze sampleRecord) "date" (Value.int 0)]⟩

/-- A concrete record missing most projected columns (in particular
`time`), but carrying a cause code. -/
def rShort : Record :=
  [("primaryaccidentcausecode", Value.str "B0")]

/-- The frame built from `[sampleRecord, rShort]` after an empty
exclusion step. -/
def dfC : DataFrame :=
  ⟨features_to_analyze, [sampleRecord, rShort]⟩

/-- A concrete record with no cause-code field at all. -/
def recNoCode : Record :=
  [("date", Value.str "2020-01-01")]

/-- A concrete two-row frame with dates `0` and `-1`. -/
def dfW : DataFrame :=
  ⟨["date"], [[("date", Value.int 0)], [("date", Value.int (-1))]]⟩

/-- A server whose second call (offset 2) fails with status 500. -/
def failServer : Nat → Nat → Response Nat :=
  fun _ offset => if offset = 0 then ⟨200, [10, 20]⟩ else ⟨500, []⟩

/-! ## Fetch-loop lemmas -/

/-- Arithmetic of the ceiling division that counts non-empty pages:
one page of size `P` taken off `m` remaining records. -/
lemma ceil_div_step (m P : Nat) (hP : 1 ≤ P) (hm : 1 ≤ m) :
    (m - P + P - 1) / P + 1 = (m + P - 1) / P := by
  have key : (m + P - 1) / P = (m - 1) / P + 1 := by
    have h2 : m + P - 1 = (m - 1) + P := by omega
    rw [h2, Nat.add_div_right _ hP]
  rcases le_or_lt P m with h | h
  · have h1 : m - P + P - 1 = m - 1 := by omega
    rw [h1, key]
  · have h1 : m - P + P - 1 = P - 1 := by omega
    rw [h1, key, Nat.div_eq_of_lt (by omega), Nat.div_eq_of_lt (by omega)]

/-- Running the fetch loop against the mock paging source from any
offset: it completes with the rest of the dataset appended, in
`⌈(N - offset)/P⌉ + 1` calls. -/
lemma fetchAux_pageServer (dataset : List α) (P : Nat) (hP : 1 ≤ P) :
    ∀ fuel offset acc, dataset.length - offset + 1 ≤ fuel →
      fetchAux (pageServer dataset) P fuel offset acc
        = (FetchOutcome.complete (acc ++ dataset.drop offset),
           (dataset.length - offset + P - 1) / P + 1) := by
  intro fuel
  induction fuel with
  | zero => intro offset acc hf; exact absurd hf (by omega)
  | succ fuel ih =>
    intro offset acc hf
    rcases le_or_lt dataset.length offset with hle | hlt
    · have hdrop : dataset.drop offset = [] := List.drop_eq_nil_of_le hle
      have hm : dataset.length - offset = 0 := by omega
      simp only [fetchAux, pageServer, hdrop, List.take_nil, List.isEmpty_nil,
        if_pos rfl, if_true, List.append_nil, hm]
      rw [Nat.div_eq_of_lt (by omega)]
    · have hlen : ((dataset.drop offset).take P).length
          = min P (dataset.length - offset) := by
        rw [List.length_take, List.length_drop]
      have hne : ((dataset.drop offset).take P).isEmpty = false := by
        have : ((dataset.drop offset).take P) ≠ [] := by
          intro hnil
          rw [hnil] at hlen
          simp at hlen
          omega
        simpa [List.isEmpty_iff] using this
      have hsplit : (dataset.drop offset).take P ++ dataset.drop (offset + P)
          = dataset.drop offset := by
        have hdd : dataset.drop (offset + P) = (dataset.drop offset).drop P := by
          rw [List.drop_drop]
        rw [hdd]
        exact List.take_append_drop P (dataset.drop offset)
      have harg : dataset.length - (offset + P) = dataset.length - offset - P := by
        omega
      simp only [fetchAux, pageServer, hne, if_pos rfl, Bool.false_eq_true,
        if_false]
      rw [ih (offset + P) (acc ++ (dataset.drop offset).take P) (by omega)]
      have hcount : (dataset.length - (offset + P) + P - 1) / P + 1 + 1
          = (dataset.length - offset + P - 1) / P + 1 := by
        rw [harg]
        exact congrArg (fun t => t + 1)
          (ceil_div_step (dataset.length - offset) P hP (by omega))
      rw [List.append_assoc, hsplit]
      exact congrArg (fun t => (FetchOutcome.complete (acc ++ dataset.drop offset), t)) hcount

/-- Running the fetch loop against any server whose first `F` calls
from `offset` succeed with non-empty pages and whose call `F + 1`
returns a non-200 status: the loop aborts there, yielding the pages
accumulated so far and `F + 1` calls. -/
lemma fetchAux_fail (s : Nat → Nat → Response α) (P : Nat) :
    ∀ F fuel offset acc, F + 1 ≤ fuel →
      (∀ k, k < F → (s P (offset + k * P)).status = 200
          ∧ (s P (offset + k * P)).data ≠ []) →
      (s P (offset + F * P)).status ≠ 200 →
      fetchAux s P fuel offset acc
        = (FetchOutcome.failed (s P (offset + F * P)).status
            (acc ++ pagesConcatFrom s P offset F), F + 1) := by
  intro F
  induction F with
  | zero =>
    intro fuel offset acc hfuel _ hfail
    obtain ⟨fuel, rfl⟩ : ∃ f, fuel = f + 1 := ⟨fuel - 1, by omega⟩
    simp only [Nat.zero_mul, Nat.add_zero] at hfail
    simp only [fetchAux, pageServer, if_neg hfail, pagesConcatFrom,
      List.append_nil, Nat.zero_mul, Nat.add_zero]
  | succ F ih =>
    intro fuel offset acc hfuel hok hfail
    obtain ⟨fuel, rfl⟩ : ∃ f, fuel = f + 1 := ⟨fuel - 1, by omega⟩
    obtain ⟨hst0, hne0⟩ := hok 0 (by omega)
    simp only [Nat.zero_mul, Nat.add_zero] at hst0 hne0
    have hne0' : (s P offset).data.isEmpty = false := by
      simpa [List.isEmpty_iff] using hne0
    simp only [fetchAux, if_pos hst0, hne0', Bool.false_eq_true, if_false]
    have hok' : ∀ k, k < F → (s P (offset + P + k * P)).status = 200
        ∧ (s P (offset + P + k * P)).data ≠ [] := by
      intro k hk
      have he : offset + P + k * P = offset + (k + 1) * P := by ring
      rw [he]
      exact hok (k + 1) (by omega)
    have hfail' : (s P (offset + P + F * P)).status ≠ 200 := by
      have he : offset + P + F * P = offset + (F + 1) * P := by ring
      rw [he]
      exact hfail
    rw [ih fuel (offset + P) (acc ++ (s P offset).data) (by omega) hok' hfail']
    have he : offset + P + F * P = offset + (F + 1) * P := by ring
    rw [he, List.append_assoc]
    rfl

/-! ## Fetch-loop claims -/

/-- Claim C2: against a mock source holding `N` records served in
offset order with page size `P ≥ 1`, the fetch loop terminates (given
fuel at least `N + 1` it completes, never running out), the total
number of GET calls it issues is `⌈N/P⌉ + 1`, it accumulates the whole
dataset, and the last call — the one at the first offset past the
data — returns an empty page, which is what ends the loop on the
success path. -/
theorem fetch_terminates_with_ceil_calls (dataset : List α) (P fuel : Nat)
    (hP : 1 ≤ P) (hfuel : dataset.length + 1 ≤ fuel) :
    fetchAll (pageServer dataset) P fuel
      = (FetchOutcome.complete dataset, (dataset.length + P - 1) / P + 1)
    ∧ (pageServer dataset P (((dataset.length + P - 1) / P) * P)).data = [] := by
  constructor
  · have h := fetchAux_pageServer dataset P hP fuel 0 [] (by omega)
    simpa [fetchAll] using h
  · have hq := Nat.div_add_mod (dataset.length + P - 1) P
    have hm : (dataset.length + P - 1) % P < P := Nat.mod_lt _ (by omega)
    have hge : dataset.length ≤ ((dataset.length + P - 1) / P) * P := by
      rw [Nat.mul_comm]
      omega
    simp [pageServer, List.drop_eq_nil_of_le hge]

/-- Witness for Claim C2 at `N = 3`, `P = 2`: four units of fuel
suffice, `⌈3/2⌉ + 1 = 3` calls are issued, and the page at offset 4 is
empty. -/
theorem fetch_terminates_with_ceil_calls_witness :
    fetchAll (pageServer [0, 1, 2]) 2 4 = (FetchOutcome.complete [0, 1, 2], 3)
    ∧ (pageServer [0, 1, 2] 2 4).data = ([] : List Nat) := by
  have h := fetch_terminates_with_ceil_calls (α := Nat) [0, 1, 2] 2 4
    (by decide) (by decide)
  exact h

/-- Claim C3: if the first `K - 1` calls succeed with non-empty pages
and call `K` is the first to return a non-200 status, the loop aborts
at call `K` (exactly `K` GETs are issued) and yields, as an ordinary
value, exactly the concatenation of the records of calls `1 … K - 1`. -/
theorem fetch_abort_keeps_partial (s : Nat → Nat → Response α) (P K fuel : Nat)
    (_hP : 1 ≤ P) (hK : 1 ≤ K) (hfuel : K ≤ fuel)
    (hok : ∀ k, k + 1 < K → (s P (k * P)).status = 200 ∧ (s P (k * P)).data ≠ [])
    (hfail : (s P ((K - 1) * P)).status ≠ 200) :
    fetchAll s P fuel
      = (FetchOutcome.failed (s P ((K - 1) * P)).status
          (pagesConcatFrom s P 0 (K - 1)), K) := by
  have h := fetchAux_fail s P (K - 1) fuel 0 []
    (by omega)
    (by intro k hk; simpa using hok k (by omega))
    (by simpa using hfail)
  have hKeq : K - 1 + 1 = K := by omega
  rw [fetchAll]
  simpa [hKeq] using h

/-- Witness for Claim C3: a server whose second call (offset 2) fails
with status 500 after a first page `[10, 20]`; the loop issues 2 calls
and returns the first page as a normal value. -/
theorem fetch_abort_keeps_partial_witness :
    fetchAll failServer 2 5 = (FetchOutcome.failed 500 [10, 20], 2) := by
  have h := fetch_abort_keeps_partial failServer 2 2 5 (by decide) (by decide)
    (by decide)
    (by
      intro k hk
      have hk0 : k = 0 := by omega
      subst hk0
      exact ⟨rfl, by decide⟩)
    (by decide)
  exact h

/-- Claim C4: for every stable backing dataset and page size `P ≥ 1`,
the concatenation accumulated by the paginated fetch (monotonically
increasing, non-overlapping offsets `0, P, 2P, …`) equals the result
of one unpaginated fetch of the whole dataset (a single call asking
for all `N` records at offset 0): pagination is lossless and
order-preserving. -/
theorem pagination_lossless (dataset : List α) (P fuel : Nat)
    (hP : 1 ≤ P) (hfuel : dataset.length + 1 ≤ fuel) :
    (fetchAll (pageServer dataset) P fuel).1
      = FetchOutcome.complete ((pageServer dataset dataset.length 0).data) := by
  have h := fetchAux_pageServer dataset P hP fuel 0 [] (by omega)
  rw [fetchAll, h]
  simp [pageServer, List.take_length]

/-- Witness for Claim C4 on the dataset `[5, 6, 7]` with page size 2. -/
theorem pagination_lossless_witness :
    (fetchAll (pageServer [5, 6, 7]) 2 4).1 = FetchOutcome.complete [5, 6, 7] :=
  pagination_lossless [5, 6, 7] 2 4 (by decide) (by decide)

/-! ## Record and DataFrame lemmas -/

/-- Overwriting the `date` column leaves every other column's cell
unchanged. -/
lemma lookupField_setField_of_ne (r : Record) (k : String) (v : Value)
    (c : String) (h : c ≠ k) :
    lookupField (setField r k v) c = lookupField r c := by
  induction r with
  | nil => rfl
  | cons kv rest ih =>
    by_cases hk : kv.1 = k
    · have hne : ¬ k = c := fun he => h he.symm
      simp only [setField, List.map_cons, if_pos hk, lookupField, if_neg hne]
      rw [← ih]
      simp only [setField, lookupField]
      rw [if_neg (by rw [hk]; exact hne)]
    · by_cases hc : kv.1 = c
      · simp only [setField, List.map_cons, if_neg hk, lookupField, if_pos hc]
      · simp only [setField, List.map_cons, if_neg hk, lookupField, if_neg hc]
        exact ih

/-- Cell version of `lookupField_setField_of_ne`. -/
lemma cellValue_setField_of_ne (r : Record) (k : String) (v : Value)
    (c : String) (h : c ≠ k) :
    cellValue (setField r k v) c = cellValue r c := by
  unfold cellValue
  rw [lookupField_setField_of_ne r k v c h]

/-- A projected row stores, at each selected column, exactly the
source row's cell. -/
lemma lookupField_projRow (cols : List String) (r : Record) (c : String)
    (h : c ∈ cols) :
    lookupField (projRow cols r) c = some (cellValue r c) := by
  induction cols with
  | nil => cases h
  | cons c1 cs ih =>
    by_cases hc : c1 = c
    · subst hc
      simp [projRow, lookupField]
    · rcases List.mem_cons.mp h with he | hm
      · exact absurd he.symm hc
      · simp only [projRow, List.map_cons, lookupField, if_neg hc]
        exact ih hm

/-- Cell version of `lookupField_projRow`. -/
lemma cellValue_projRow (cols : List String) (r : Record) (c : String)
    (h : c ∈ cols) :
    cellValue (projRow cols r) c = cellValue r c := by
  unfold cellValue
  rw [lookupField_projRow cols r c h]
  rfl

/-- Membership in `insertKey`. -/
lemma mem_insertKey (acc : List String) (k c : String) :
    c ∈ insertKey acc k ↔ c ∈ acc ∨ c = k := by
  unfold insertKey
  split
  · next hk =>
    constructor
    · exact Or.inl
    · rintro (h | rfl)
      · exact h
      · exact hk
  · simp [List.mem_append]

/-- Membership in `addRecordKeys`. -/
lemma mem_addRecordKeys (c : String) :
    ∀ (r : Record) (acc : List String),
      c ∈ addRecordKeys acc r ↔ c ∈ acc ∨ c ∈ r.map Prod.fst := by
  intro r
  induction r with
  | nil => intro acc; simp [addRecordKeys]
  | cons kv rest ih =>
    intro acc
    simp only [addRecordKeys, ih, mem_insertKey, List.map_cons, List.mem_cons]
    tauto

/-- Membership in `unionKeysAux`. -/
lemma mem_unionKeysAux (c : String) :
    ∀ (rs : List Record) (acc : List String),
      c ∈ unionKeysAux acc rs ↔ c ∈ acc ∨ ∃ r ∈ rs, c ∈ r.map Prod.fst := by
  intro rs
  induction rs with
  | nil => intro acc; simp [unionKeysAux]
  | cons r rs ih =>
    intro acc
    simp only [unionKeysAux, ih, mem_addRecordKeys, List.mem_cons]
    constructor
    · rintro ((h | h) | ⟨r1, h1, h2⟩)
      · exact Or.inl h
      · exact Or.inr ⟨r, Or.inl rfl, h⟩
      · exact Or.inr ⟨r1, Or.inr h1, h2⟩
    · rintro (h | ⟨r1, (rfl | h1), h2⟩)
      · exact Or.inl (Or.inl h)
      · exact Or.inl (Or.inr h2)
      · exact Or.inr ⟨r1, h1, h2⟩

/-- A key is looked up successfully iff it is among the record's
keys. -/
lemma hasField_iff_mem_keys (r : Record) (c : String) :
    hasField r c = true ↔ c ∈ r.map Prod.fst := by
  induction r with
  | nil => simp [hasField, lookupField]
  | cons kv rest ih =>
    by_cases hc : kv.1 = c
    · subst hc
      simp [hasField, lookupField]
    · have hcs : ¬ c = kv.1 := fun he => hc he.symm
      simp only [hasField, lookupField, if_neg hc, List.map_cons, List.mem_cons]
      constructor
      · intro h
        exact Or.inr (ih.mp h)
      · rintro (he | hm)
        · exact absurd he hcs
        · exact ih.mpr hm

/-- A column exists in the frame built from the fetched records iff
some fetched record carries the field. -/
lemma mem_unionKeys_iff (rs : List Record) (c : String) :
    c ∈ unionKeys rs ↔ ∃ r ∈ rs, hasField r c = true := by
  unfold unionKeys
  rw [mem_unionKeysAux]
  simp [hasField_iff_mem_keys]

/-- Unfolding a successful exclusion step. -/
lemma exclusionStep_ok_parts {codes : List String} {df df1 : DataFrame}
    (h : exclusionStep codes df = Except.ok df1) :
    "primaryaccidentcausecode" ∈ df.columns ∧
    df1.columns = df.columns ∧
    df1.rows = df.rows.filter fun r =>
      !(valueMemberOf (cellValue r "primaryaccidentcausecode") codes) := by
  unfold exclusionStep at h
  split at h
  · next hc =>
    injection h with h
    subst h
    exact ⟨hc, rfl, rfl⟩
  · cases h

/-- Unfolding a successful projection step. -/
lemma projectStep_ok_parts {cols : List String} {df df2 : DataFrame}
    (h : projectStep cols df = Except.ok df2) :
    (∀ c ∈ cols, c ∈ df.columns) ∧
    df2.columns = cols ∧
    df2.rows = df.rows.map (projRow cols) := by
  unfold projectStep at h
  split at h
  · next hc =>
    injection h with h
    subst h
    exact ⟨hc, rfl, rfl⟩
  · cases h

/-- Unfolding a successful date-parsing step. -/
lemma parseDatesStep_ok_parts {parse : String → Option Int} {df df3 : DataFrame}
    (h : parseDatesStep parse df = Except.ok df3) :
    "date" ∈ df.columns ∧
    df3.columns = df.columns ∧
    mapExcept (rowWithParsedDate parse) df.rows = Except.ok df3.rows := by
  unfold parseDatesStep at h
  split at h
  · next hc =>
    split at h
    · next rows hrows =>
      injection h with h
      subst h
      exact ⟨hc, rfl, hrows⟩
    · cases h
  · cases h

/-- Unfolding a successful recency step. -/
lemma recencyStep_ok_parts {today : Int} {df df4 : DataFrame}
    (h : recencyStep today df = Except.ok df4) :
    "date" ∈ df.columns ∧
    df4.columns = df.columns ∧
    df4.rows = df.rows.filter fun r =>
      keepRecent (ten_years_ago today) (cellValue r "date") := by
  unfold recencyStep at h
  split at h
  · next hc =>
    injection h with h
    subst h
    exact ⟨hc, rfl, rfl⟩
  · cases h

/-- A successful pipeline run decomposes into its four successful
steps. -/
lemma runFilter_ok_parts {codes : List String} {parse : String → Option Int}
    {today : Int} {records : List Record} {df' : DataFrame}
    (h : runFilter codes parse today records = Except.ok df') :
    ∃ df1 df2 df3,
      exclusionStep codes (toDataFrame records) = Except.ok df1 ∧
      projectStep features_to_analyze df1 = Except.ok df2 ∧
      parseDatesStep parse df2 = Except.ok df3 ∧
      recencyStep today df3 = Except.ok df' := by
  unfold runFilter at h
  split at h
  · cases h
  · next df1 h1 =>
    split at h
    · cases h
    · next df2 h2 =>
      split at h
      · cases h
      · next df3 h3 =>
        exact ⟨df1, df2, df3, h1, h2, h3, h⟩

/-- The pipeline's output frame carries exactly the fixed projected
column list. -/
lemma runFilter_ok_columns {codes : List String} {parse : String → Option Int}
    {today : Int} {records : List Record} {df' : DataFrame}
    (h : runFilter codes parse today records = Except.ok df') :
    df'.columns = features_to_analyze := by
  obtain ⟨df1, df2, df3, _, h2, h3, h4⟩ := runFilter_ok_parts h
  obtain ⟨_, hc2, _⟩ := projectStep_ok_parts h2
  obtain ⟨_, hc3, _⟩ := parseDatesStep_ok_parts h3
  obtain ⟨_, hc4, _⟩ := recencyStep_ok_parts h4
  rw [hc4, hc3, hc2]

/-- A successful `mapExcept` succeeds elementwise, in order. -/
lemma mapExcept_ok_forall₂ {f : α → Except String β} :
    ∀ {l : List α} {l' : List β}, mapExcept f l = Except.ok l' →
      List.Forall₂ (fun a b => f a = Except.ok b) l l' := by
  intro l
  induction l with
  | nil =>
    intro l' h
    injection h with h
    subst h
    exact List.Forall₂.nil
  | cons a as ih =>
    intro l' h
    unfold mapExcept at h
    split at h
    · cases h
    · next b hb =>
      split at h
      · cases h
      · next bs hbs =>
        injection h with h
        subst h
        exact List.Forall₂.cons hb (ih hbs)

/-- Each element of a successful `mapExcept`'s output comes from an
input element. -/
lemma mapExcept_ok_mem {f : α → Except String β} {l : List α} {l' : List β}
    (h : mapExcept f l = Except.ok l') {b : β} (hb : b ∈ l') :
    ∃ a ∈ l, f a = Except.ok b := by
  have hf := mapExcept_ok_forall₂ h
  clear h
  induction hf with
  | nil => cases hb
  | cons hR htail ih =>
    rcases List.mem_cons.mp hb with rfl | hb'
    · exact ⟨_, List.mem_cons_self _ _, hR⟩
    · obtain ⟨a, ha, hfa⟩ := ih hb'
      exact ⟨a, List.mem_cons_of_mem _ ha, hfa⟩

/-- Pull a sublist of the right-hand side of a `Forall₂` back to a
sublist of the left-hand side. -/
lemma forall₂_sublist_right {R : α → β → Prop} :
    ∀ {l₂ : List α} {l₃ l₄ : List β}, List.Forall₂ R l₂ l₃ → l₄.Sublist l₃ →
      ∃ l₁, l₁.Sublist l₂ ∧ List.Forall₂ R l₁ l₄ := by
  intro l₂ l₃ l₄ h hs
  induction hs generalizing l₂ with
  | slnil =>
    exact ⟨[], List.nil_sublist _, List.Forall₂.nil⟩
  | cons b hsub ih =>
    cases h with
    | cons hR htail =>
      obtain ⟨l₁, hl₁, hf⟩ := ih htail
      exact ⟨l₁, hl₁.cons _, hf⟩
  | cons₂ b hsub ih =>
    cases h with
    | cons hR htail =>
      obtain ⟨l₁, hl₁, hf⟩ := ih htail
      exact ⟨_ :: l₁, hl₁.cons₂ _, List.Forall₂.cons hR hf⟩

/-! ## Filter-pipeline claims -/

/-- Claim C1: for every current instant `today` (in days), the recency
filter keeps a record whose date cell is exactly `today - 3650` days —
the lower bound `ten_years_ago = today - 365*10` is inclusive because
the comparison is `≥` — and drops a record dated `today - 3651`
days. -/
theorem recency_lower_bound_inclusive (today : Int) (df : DataFrame)
    (hc : "date" ∈ df.columns) :
    ∃ df', recencyStep today df = Except.ok df' ∧
      ∀ r ∈ df.rows,
        (cellValue r "date" = Value.int (today - 3650) → r ∈ df'.rows) ∧
        (cellValue r "date" = Value.int (today - 3651) → r ∉ df'.rows) := by
  refine ⟨⟨df.columns, df.rows.filter fun r =>
      keepRecent (ten_years_ago today) (cellValue r "date")⟩, ?_, ?_⟩
  · unfold recencyStep
    rw [if_pos hc]
  · intro r hr
    constructor
    · intro hd
      refine List.mem_filter.mpr ⟨hr, ?_⟩
      rw [hd]
      simp only [keepRecent, ten_years_ago, decide_eq_true_eq]
      omega
    · intro hd hmem
      have hp := (List.mem_filter.mp hmem).2
      rw [hd] at hp
      simp only [keepRecent, ten_years_ago, decide_eq_true_eq] at hp
      omega

/-- Witness for Claim C1: with `today = 3650`, the row dated `0` is
kept and the row dated `-1` is dropped. -/
theorem recency_lower_bound_inclusive_witness :
    ∃ df', recencyStep 3650 dfW = Except.ok df' ∧
      ∀ r ∈ dfW.rows,
        (cellValue r "date" = Value.int (3650 - 3650) → r ∈ df'.rows) ∧
        (cellValue r "date" = Value.int (3650 - 3651) → r ∉ df'.rows) :=
  recency_lower_bound_inclusive 3650 dfW (by decide)

/-- Claim C6: the lookback cutoff is a single instant per run — there
is one cutoff `c` (namely `ten_years_ago today`, computed once from
`today`) such that a record the recency filter sees is kept iff its
parsed date is `≥ c`; no record is compared against a different
cutoff. -/
theorem recency_single_cutoff (today : Int) (df : DataFrame)
    (hc : "date" ∈ df.columns) :
    ∃ c : Int, ∃ df', recencyStep today df = Except.ok df' ∧
      ∀ r ∈ df.rows, ∀ d : Int, cellValue r "date" = Value.int d →
        (r ∈ df'.rows ↔ c ≤ d) := by
  refine ⟨ten_years_ago today, ⟨df.columns, df.rows.filter fun r =>
      keepRecent (ten_years_ago today) (cellValue r "date")⟩, ?_, ?_⟩
  · unfold recencyStep
    rw [if_pos hc]
  · intro r hr d hd
    constructor
    · intro hm
      have hp := (List.mem_filter.mp hm).2
      rw [hd] at hp
      simpa [keepRecent] using hp
    · intro hle
      refine List.mem_filter.mpr ⟨hr, ?_⟩
      rw [hd]
      simpa [keepRecent] using hle

/-- Witness for Claim C6 on the concrete two-row frame `dfW`. -/
theorem recency_single_cutoff_witness :
    ∃ c : Int, ∃ df', recencyStep 3650 dfW = Except.ok df' ∧
      ∀ r ∈ dfW.rows, ∀ d : Int, cellValue r "date" = Value.int d →
        (r ∈ df'.rows ↔ c ≤ d) :=
  recency_single_cutoff 3650 dfW (by decide)

/-- Claim C5: for every input record set and exclusion code set, no
record of the filter pipeline's output carries a cause-code cell that
is a member of the exclusion code set (the set being exactly the
lookup table's key list). -/
theorem output_code_not_excluded (codes : List String)
    (parse : String → Option Int) (today : Int) (records : List Record)
    (df' : DataFrame) (h : runFilter codes parse today records = Except.ok df') :
    ∀ r ∈ df'.rows, ∀ s : String,
      cellValue r "primaryaccidentcausecode" = Value.str s → s ∉ codes := by
  intro r hr s hs
  obtain ⟨df1, df2, df3, h1, h2, h3, h4⟩ := runFilter_ok_parts h
  obtain ⟨_, _, hrows1⟩ := exclusionStep_ok_parts h1
  obtain ⟨_, _, hrows2⟩ := projectStep_ok_parts h2
  obtain ⟨_, _, hmap⟩ := parseDatesStep_ok_parts h3
  obtain ⟨_, _, hrows4⟩ := recencyStep_ok_parts h4
  rw [hrows4] at hr
  have hr3 : r ∈ df3.rows := (List.mem_filter.mp hr).1
  obtain ⟨r2, hr2, hpd⟩ := mapExcept_ok_mem hmap hr3
  obtain ⟨v, hrv⟩ : ∃ v, r = setField r2 "date" v := by
    unfold rowWithParsedDate at hpd
    split at hpd
    · next v hv =>
      injection hpd with hpd
      exact ⟨v, hpd.symm⟩
    · cases hpd
  have hcode2 : cellValue r2 "primaryaccidentcausecode" = Value.str s := by
    rw [hrv] at hs
    rwa [cellValue_setField_of_ne r2 "date" v "primaryaccidentcausecode"
      (by decide)] at hs
  rw [hrows2] at hr2
  obtain ⟨r1, hr1, hproj⟩ := List.mem_map.mp hr2
  have hcode1 : cellValue r1 "primaryaccidentcausecode" = Value.str s := by
    rw [← hproj] at hcode2
    rwa [cellValue_projRow features_to_analyze r1 "primaryaccidentcausecode"
      (by decide)] at hcode2
  rw [hrows1] at hr1
  have hpred := (List.mem_filter.mp hr1).2
  rw [hcode1] at hpred
  simpa [valueMemberOf] using hpred

/-- Witness for Claim C5: a full pipeline run over one record whose
cause code is not excluded. -/
theorem output_code_not_excluded_witness :
    runFilter ["T001"] constParse 0 [sampleRecord] = Except.ok sampleOut
    ∧ ∀ r ∈ sampleOut.rows, ∀ s : String,
        cellValue r "primaryaccidentcausecode" = Value.str s → s ∉ ["T001"] :=
  ⟨rfl, output_code_not_excluded ["T001"] constParse 0 [sampleRecord] sampleOut rfl⟩

/-- Claim C8: the exported table has, as header, exactly the fixed
21-column projected list in its fixed order, one row per filtered
record (total length is the filtered-record count plus the header),
and no index column — every row has exactly the 21 projected cells. -/
theorem export_header_and_shape (codes : List String)
    (parse : String → Option Int) (today : Int) (records : List Record)
    (df' : DataFrame) (h : runFilter codes parse today records = Except.ok df') :
    to_csv df'
      = (features_to_analyze.map Value.str)
        :: df'.rows.map (fun r => features_to_analyze.map fun c => cellValue r c)
    ∧ (to_csv df').length = df'.rows.length + 1
    ∧ features_to_analyze.length = 21
    ∧ ∀ row ∈ to_csv df', row.length = 21 := by
  have hcols := runFilter_ok_columns h
  refine ⟨?_, ?_, by decide, ?_⟩
  · unfold to_csv
    rw [hcols]
  · unfold to_csv
    simp
  · intro row hrow
    unfold to_csv at hrow
    rcases List.mem_cons.mp hrow with rfl | hm
    · rw [List.length_map, hcols]
      decide
    · obtain ⟨r, _, rfl⟩ := List.mem_map.mp hm
      rw [List.length_map, hcols]
      decide

/-- Witness for Claim C8 on the concrete pipeline output `sampleOut`. -/
theorem export_header_and_shape_witness :
    to_csv sampleOut
      = (features_to_analyze.map Value.str)
        :: sampleOut.rows.map (fun r => features_to_analyze.map fun c => cellValue r c)
    ∧ (to_csv sampleOut).length = sampleOut.rows.length + 1
    ∧ features_to_analyze.length = 21
    ∧ ∀ row ∈ to_csv sampleOut, row.length = 21 :=
  export_header_and_shape ["T001"] constParse 0 [sampleRecord] sampleOut rfl

/-- Claim C10: the filter pipeline is order-preserving — a successful
run's output rows are, in order, the per-record transformation
(projection followed by date parsing) of a subsequence of the fetched
records: no reordering, duplication or interleaving. -/
theorem pipeline_order_preserving (codes : List String)
    (parse : String → Option Int) (today : Int) (records : List Record)
    (df' : DataFrame) (h : runFilter codes parse today records = Except.ok df') :
    ∃ sub : List Record, sub.Sublist records ∧
      List.Forall₂ (fun a b => transformRecord parse a = Except.ok b)
        sub df'.rows := by
  obtain ⟨df1, df2, df3, h1, h2, h3, h4⟩ := runFilter_ok_parts h
  obtain ⟨_, _, hrows1⟩ := exclusionStep_ok_parts h1
  obtain ⟨_, _, hrows2⟩ := projectStep_ok_parts h2
  obtain ⟨_, _, hmap⟩ := parseDatesStep_ok_parts h3
  obtain ⟨_, _, hrows4⟩ := recencyStep_ok_parts h4
  have hf2 := mapExcept_ok_forall₂ hmap
  rw [hrows2] at hf2
  have hf1 : List.Forall₂ (fun a b => transformRecord parse a = Except.ok b)
      df1.rows df3.rows := List.forall₂_map_left_iff.mp hf2
  have hsub4 : df'.rows.Sublist df3.rows := by
    rw [hrows4]
    exact List.filter_sublist _
  obtain ⟨sub, hsub1, hfa⟩ := forall₂_sublist_right hf1 hsub4
  refine ⟨sub, ?_, hfa⟩
  have hsubrec : df1.rows.Sublist records := by
    rw [hrows1]
    exact List.filter_sublist _
  exact hsub1.trans hsubrec

/-- Witness for Claim C10 on a concrete successful run. -/
theorem pipeline_order_preserving_witness :
    ∃ sub : List Record, sub.Sublist [sampleRecord] ∧
      List.Forall₂ (fun a b => transformRecord constParse a = Except.ok b)
        sub sampleOut.rows :=
  pipeline_order_preserving ["T001"] constParse 0 [sampleRecord] sampleOut rfl

/-- Counterexample to Claim C7 as stated: the record `rShort` survives
the exclusion step and is missing the projected column `time`, yet the
projection step succeeds — because another fetched record
(`sampleRecord`) supplies the column, `rShort` is kept and null-filled
rather than raising `KeyError`. -/
theorem projection_missing_column_claim_false :
    exclusionStep [] (toDataFrame [sampleRecord, rShort]) = Except.ok dfC
    ∧ rShort ∈ dfC.rows
    ∧ "time" ∈ features_to_analyze
    ∧ hasField rShort "time" = false
    ∧ projectStep features_to_analyze dfC
        = Except.ok ⟨features_to_analyze,
            [projRow features_to_analyze sampleRecord,
             projRow features_to_analyze rShort]⟩
    ∧ ¬ ∃ e, projectStep features_to_analyze dfC = Except.error e := by
  refine ⟨rfl, by decide, by decide, rfl, rfl, ?_⟩
  rintro ⟨e, he⟩
  have hok : projectStep features_to_analyze dfC
      = Except.ok ⟨features_to_analyze,
          [projRow features_to_analyze sampleRecord,
           projRow features_to_analyze rShort]⟩ := rfl
  exact Except.noConfusion (hok.symm.trans he)

/-- Claim C7 as amended: the projection step fails with `KeyError` iff
some configured projected column is absent from every fetched record
(the frame has no such column); otherwise it succeeds keeping every
surviving row, a row individually missing a column being null-filled,
not skipped. -/
theorem projection_missing_column_iff (codes : List String)
    (records : List Record) (df1 : DataFrame)
    (h1 : exclusionStep codes (toDataFrame records) = Except.ok df1) :
    (projectStep features_to_analyze df1 = Except.error "KeyError"
      ↔ ∃ c ∈ features_to_analyze, ∀ r ∈ records, hasField r c = false)
    ∧ (projectStep features_to_analyze df1 ≠ Except.error "KeyError" →
        projectStep features_to_analyze df1
          = Except.ok ⟨features_to_analyze,
              df1.rows.map (projRow features_to_analyze)⟩) := by
  obtain ⟨_, hcols, _⟩ := exclusionStep_ok_parts h1
  have hcols' : df1.columns = unionKeys records := hcols
  unfold projectStep
  rw [hcols']
  by_cases hall : ∀ c ∈ features_to_analyze, c ∈ unionKeys records
  · rw [if_pos hall]
    refine ⟨⟨fun habs => Except.noConfusion habs, ?_⟩, fun _ => rfl⟩
    rintro ⟨c, hcf, hnone⟩
    exfalso
    have hm := hall c hcf
    rw [mem_unionKeys_iff] at hm
    obtain ⟨r, hrrec, hfield⟩ := hm
    have hfalse := hnone r hrrec
    rw [hfalse] at hfield
    cases hfield
  · rw [if_neg hall]
    refine ⟨⟨fun _ => ?_, fun _ => rfl⟩, fun hne => absurd rfl hne⟩
    push_neg at hall
    obtain ⟨c, hcf, hnotin⟩ := hall
    refine ⟨c, hcf, fun r hr => ?_⟩
    by_contra hf
    apply hnotin
    rw [mem_unionKeys_iff]
    refine ⟨r, hr, ?_⟩
    revert hf
    cases hasField r c <;> simp

/-- Witness for the amended Claim C7 on the concrete mixed input
`[sampleRecord, rShort]`. -/
theorem projection_missing_column_iff_witness :
    (projectStep features_to_analyze dfC = Except.error "KeyError"
      ↔ ∃ c ∈ features_to_analyze, ∀ r ∈ [sampleRecord, rShort],
          hasField r c = false)
    ∧ (projectStep features_to_analyze dfC ≠ Except.error "KeyError" →
        projectStep features_to_analyze dfC
          = Except.ok ⟨features_to_analyze,
              dfC.rows.map (projRow features_to_analyze)⟩) :=
  projection_missing_column_iff [] [sampleRecord, rShort] dfC rfl

/-- Counterexample to Claim C9 as stated: when no fetched record has
the cause-code field at all, the exclusion step itself raises
`KeyError` instead of retaining the record — `recNoCode`, whose
cause-code field is missing, is not retained. -/
theorem null_code_retained_claim_false :
    recNoCode ∈ [recNoCode]
    ∧ lookupField recNoCode "primaryaccidentcausecode" = none
    ∧ exclusionStep ["T001"] (toDataFrame [recNoCode]) = Except.error "KeyError"
    ∧ ¬ ∃ df1, exclusionStep ["T001"] (toDataFrame [recNoCode]) = Except.ok df1
          ∧ recNoCode ∈ df1.rows := by
  refine ⟨by decide, rfl, rfl, ?_⟩
  rintro ⟨df1, hok, _⟩
  have herr : exclusionStep ["T001"] (toDataFrame [recNoCode])
      = Except.error "KeyError" := rfl
  exact Except.noConfusion (herr.symm.trans hok)

/-- Claim C9 as amended: provided the cause-code column exists in the
fetched frame (some fetched record carries the field, possibly with a
null value), a record whose own cause-code cell is null — the field
missing from that record, or present with a null value — is retained
by the exclusion step for every exclusion code set, since null never
tests as a member of the set. -/
theorem null_code_retained (records : List Record) (codes : List String)
    (r : Record) (hmem : r ∈ records)
    (hnull : cellValue r "primaryaccidentcausecode" = Value.null)
    (hcol : "primaryaccidentcausecode" ∈ unionKeys records) :
    ∃ df1, exclusionStep codes (toDataFrame records) = Except.ok df1
      ∧ r ∈ df1.rows := by
  refine ⟨⟨unionKeys records, records.filter fun r0 =>
      !(valueMemberOf (cellValue r0 "primaryaccidentcausecode") codes)⟩, ?_, ?_⟩
  · simp only [exclusionStep, toDataFrame]
    rw [if_pos hcol]
  · refine List.mem_filter.mpr ⟨hmem, ?_⟩
    rw [hnull]
    rfl

/-- Witness for the amended Claim C9: a single record whose cause-code
field is present but null is retained. -/
theorem null_code_retained_witness :
    ∃ df1,
      exclusionStep ["T001"]
          (toDataFrame [[("primaryaccidentcausecode", Value.null)]])
        = Except.ok df1
      ∧ ([("primaryaccidentcausecode", Value.null)] : Record) ∈ df1.rows :=
  null_code_retained [[("primaryaccidentcausecode", Value.null)]] ["T001"]
    [("primaryaccidentcausecode", Value.null)] (by decide) rfl (by decide)
